import Mathlib

/-!
Verification of the Sandbox Lifecycle & Mount Orchestration subsystem of the
incus-sandbox-sdk repository, as a shallow embedding of `src/sandbox.ts`,
`src/client.ts`, `src/errors.ts` and `src/types.ts`.

Effectful methods are embedded as pure functions from an explicit environment
(the outcomes that the external incus runtime returns for each remote call made
by the method) to a pair of (the list of remote operations the method issues,
in order) and (the settled result: a value, or the raised error).  Machine-level
details that the claims do not touch (JSON parsing of runtime output, wall-clock
time) are abstracted into the environment and noted at their definitions.
-/

/-- Model of `SandboxType` from `types.ts`: `'container' | 'vm'`. -/
inductive SandboxType where
  | container
  | vm
deriving DecidableEq, Repr

/-- Model of `SandboxState` from `types.ts`: `'running' | 'stopped' | 'frozen' | 'error'`. -/
inductive SandboxState where
  | running
  | stopped
  | frozen
  | error
deriving DecidableEq, Repr

/-- Model of `MountMode` from `types.ts`: `'overlay' | 'readonly' | 'readwrite'`. -/
inductive MountMode where
  | overlay
  | readonly
  | readwrite
deriving DecidableEq, Repr

/-- The errors the code can raise.  The `IncusSdkError` subclasses of
`errors.ts` each carry their message; `typeError` stands for a plain JavaScript
`TypeError` raised by the runtime itself (it is not an `IncusSdkError` and
carries no SDK error code). -/
inductive Err where
  | sandboxNotFound (name : String)
  | imageNotFound (image : String)
  | timeoutError (operation : String) (timeoutMs : Nat)
  | nameConflict (name : String)
  | sandboxNotRunning (name : String)
  | commandError (message : String)
  | resourceLimit (message : String)
  | incusConnectionError (message : String)
  | pathNotFound (path : String)
  | mountError (message : String)
  | mountNotFound (target : String)
  | typeError (message : String)
deriving DecidableEq, Repr

/-- The `code` field each `IncusSdkError` subclass sets in `errors.ts`;
a bare JavaScript `TypeError` has none. -/
def Err.code : Err → Option String
  | .sandboxNotFound _ => some "SANDBOX_NOT_FOUND"
  | .imageNotFound _ => some "IMAGE_NOT_FOUND"
  | .timeoutError _ _ => some "TIMEOUT"
  | .nameConflict _ => some "NAME_CONFLICT"
  | .sandboxNotRunning _ => some "SANDBOX_NOT_RUNNING"
  | .commandError _ => some "COMMAND_FAILED"
  | .resourceLimit _ => some "RESOURCE_LIMIT"
  | .incusConnectionError _ => some "CONNECTION_ERROR"
  | .pathNotFound _ => some "PATH_NOT_FOUND"
  | .mountError _ => some "MOUNT_ERROR"
  | .mountNotFound _ => some "MOUNT_NOT_FOUND"
  | .typeError _ => none

/-- Model of `ExecResult` from `client.ts`: the settled value of an `execIncus` call. -/
structure ExecResult where
  stdout : String
  stderr : String
  exitCode : Int
deriving DecidableEq, Repr

/-- JavaScript `String.prototype.toLowerCase`, modelled character-wise (the
status words involved are ASCII, where the two agree). -/
def jsToLower (s : String) : String := String.mk (s.toList.map Char.toLower)

/-- JavaScript `String.prototype.trim`, modelled over the character list. -/
def jsTrim (s : String) : String :=
  String.mk (((s.toList.dropWhile Char.isWhitespace).reverse.dropWhile
    Char.isWhitespace).reverse)

/-- JavaScript `String.prototype.startsWith`, modelled over character lists. -/
def jsStartsWith (s pre : String) : Bool := pre.toList.isPrefixOf s.toList

/-- JavaScript `String.prototype.includes`, modelled over character lists. -/
def listInfixOf (needle : List Char) : List Char → Bool
  | [] => needle.isEmpty
  | c :: rest => needle.isPrefixOf (c :: rest) || listInfixOf needle rest

/-- JavaScript `String.prototype.includes`. -/
def jsIncludes (s needle : String) : Bool := listInfixOf needle.toList s.toList

/-- JavaScript `String.prototype.split` with a one-character separator,
modelled over the character list (accumulator holds the current field
reversed). -/
def splitCharAux (sep : Char) : List Char → List Char → List (List Char)
  | [], acc => [acc.reverse]
  | c :: rest, acc =>
      if c = sep then acc.reverse :: splitCharAux sep rest []
      else splitCharAux sep rest (c :: acc)

/-- JavaScript `String.prototype.split` with a one-character separator. -/
def jsSplitChar (sep : Char) (s : String) : List String :=
  (splitCharAux sep s.toList []).map String.mk

/-- JavaScript `Array.prototype.join`. -/
def jsJoin (sep : String) : List String → String
  | [] => ""
  | [x] => x
  | x :: xs => x ++ sep ++ jsJoin sep xs

/-- JavaScript `String.prototype.slice`-style prefix removal: drop the first
`n` characters. -/
def strDrop (s : String) (n : Nat) : String := String.mk (s.toList.drop n)

/-- Model of `mapStatus` from `client.ts` lines 147-153: maps the runtime's native
status string to the sandbox state enum, case-insensitively, defaulting to
`error`. -/
def mapStatus (status : String) : SandboxState :=
  if jsToLower status = "running" then SandboxState.running
  else if jsToLower status = "stopped" then SandboxState.stopped
  else if jsToLower status = "frozen" then SandboxState.frozen
  else SandboxState.error

/-- C9: for every native status string, the mapping returns `running`,
`stopped` or `frozen` exactly when the lowercased input equals that word, and
`error` for every other input. -/
theorem mapStatus_spec (status : String) :
    (mapStatus status = SandboxState.running ↔ jsToLower status = "running") ∧
    (mapStatus status = SandboxState.stopped ↔ jsToLower status = "stopped") ∧
    (mapStatus status = SandboxState.frozen ↔ jsToLower status = "frozen") ∧
    (jsToLower status ≠ "running" → jsToLower status ≠ "stopped" →
      jsToLower status ≠ "frozen" → mapStatus status = SandboxState.error) := by
  unfold mapStatus
  split_ifs with h1 h2 h3 <;> simp_all

/-- Witness for `mapStatus_spec` at the concrete input `"Weird"`, whose
lowercasing matches none of the three healthy words, so it maps to `error`. -/
theorem mapStatus_spec_witness : mapStatus "Weird" = SandboxState.error :=
  (mapStatus_spec "Weird").2.2.2 (by decide) (by decide) (by decide)

/-- The remote operations a sandbox method issues against the incus runtime,
recorded in the order the code issues them.  Each constructor corresponds to
one `client.*` call site in `sandbox.ts` (or the host `fs.access` check). -/
inductive Op where
  | accessSource (path : String)
  | getState
  | getConfig (key : String)
  | setConfig (key value : String)
  | restartInstance
  | addDiskDevice (device source path : String) (readonly shift : Bool)
  | execIn (argv : List String)
  | removeDiskDevice (device : String)
  | writeFile (path content : String)
  | listSnapshots
  | deleteSnapshot (snapshot : String)
  | deleteInstance (force : Bool)
deriving DecidableEq, Repr

/-- How the spawned `incus` child process behaves during one `execIncus` call:
whether the `error` event fires (spawn failure), whether `close` fires before
the timeout timer, and the data/exit code it delivers.  This abstracts the
real-time race in `client.ts` lines 22-71 into the two scenarios the code
distinguishes. -/
structure SpawnBehavior where
  errorEvent : Option String
  closesWithinTimeout : Bool
  stdout : String
  stderr : String
  exitCode : Option Int
deriving DecidableEq, Repr

/-- Model of `execIncus` from `client.ts` lines 22-71, as a function of the spawned
process behaviour.  Returns the signals sent to the process and the settled
promise: on an `error` event it rejects with `IncusConnectionError`; when a
positive timeout elapses before `close`, it sends `SIGTERM` and rejects with
`IncusConnectionError` (note: not `TimeoutError`); otherwise it resolves with
the captured output and `code ?? 0`. -/
def execIncus (timeout : Nat) (p : SpawnBehavior) : List String × Except Err ExecResult :=
  match p.errorEvent with
  | some msg =>
      ([], Except.error (Err.incusConnectionError ("Failed to execute incus command: " ++ msg)))
  | none =>
      if 0 < timeout ∧ p.closesWithinTimeout = false then
        (["SIGTERM"],
         Except.error (Err.incusConnectionError ("Command timed out after " ++ toString timeout ++ "ms")))
      else
        ([], Except.ok { stdout := p.stdout, stderr := p.stderr, exitCode := p.exitCode.getD 0 })

/-- Default timeout of `execIncus` (`client.ts` line 23). -/
def execIncusDefaultTimeout : Nat := 60000

/-- Default timeout `execInInstance` passes to `execIncus`
(`client.ts` line 254). -/
def execInInstanceDefaultTimeout : Nat := 30000

/-- The settled outcome of one `execIncus` invocation, as seen by the
`client.ts` wrapper functions: either the rejection `execIncus` produced, or
the `ExecResult` it resolved with. -/
def IncusOutcome : Type := Except Err ExecResult

/-- Model of `client.setInstanceConfig` (`client.ts` lines 341-346): throws
`CommandError` on a non-zero exit. -/
def client.setInstanceConfig (key : String) (out : IncusOutcome) : Except Err Unit :=
  match out with
  | Except.error e => Except.error e
  | Except.ok r =>
      if r.exitCode ≠ 0 then
        Except.error (Err.commandError ("Failed to set config " ++ key ++ ": " ++ r.stderr))
      else Except.ok ()

/-- Model of `client.getInstanceConfig` (`client.ts` lines 348-354): returns `null` on
a non-zero exit, else the trimmed stdout; a rejection of `execIncus` itself
propagates. -/
def client.getInstanceConfig (out : IncusOutcome) : Except Err (Option String) :=
  match out with
  | Except.error e => Except.error e
  | Except.ok r =>
      if r.exitCode ≠ 0 then Except.ok none
      else Except.ok (some (jsTrim r.stdout))

/-- Model of `client.restartInstance` (`client.ts` lines 223-228). -/
def client.restartInstance (out : IncusOutcome) : Except Err Unit :=
  match out with
  | Except.error e => Except.error e
  | Except.ok r =>
      if r.exitCode ≠ 0 then
        Except.error (Err.commandError ("Failed to restart instance: " ++ r.stderr))
      else Except.ok ()

/-- Model of `client.addDiskDevice` (`client.ts` lines 311-332). -/
def client.addDiskDevice (out : IncusOutcome) : Except Err Unit :=
  match out with
  | Except.error e => Except.error e
  | Except.ok r =>
      if r.exitCode ≠ 0 then
        Except.error (Err.commandError ("Failed to add disk device: " ++ r.stderr))
      else Except.ok ()

/-- Model of `client.removeDiskDevice` (`client.ts` lines 334-339). -/
def client.removeDiskDevice (out : IncusOutcome) : Except Err Unit :=
  match out with
  | Except.error e => Except.error e
  | Except.ok r =>
      if r.exitCode ≠ 0 then
        Except.error (Err.commandError ("Failed to remove disk device: " ++ r.stderr))
      else Except.ok ()

/-- Model of `client.deleteSnapshot` (`client.ts` lines 285-290). -/
def client.deleteSnapshot (out : IncusOutcome) : Except Err Unit :=
  match out with
  | Except.error e => Except.error e
  | Except.ok r =>
      if r.exitCode ≠ 0 then
        Except.error (Err.commandError ("Failed to delete snapshot: " ++ r.stderr))
      else Except.ok ()

/-- The argv `client.deleteInstance` (`client.ts` lines 189-199) passes to
`execIncus`; its `force` parameter defaults to `false`, adding `--force` only
when set. -/
def client.deleteInstanceArgs (name : String) (force : Bool := false) : List String :=
  ["delete", name] ++ (if force then ["--force"] else [])

/-- Model of `client.deleteInstance` (`client.ts` lines 189-199): throws `CommandError`
on a non-zero exit. -/
def client.deleteInstance (out : IncusOutcome) : Except Err Unit :=
  match out with
  | Except.error e => Except.error e
  | Except.ok r =>
      if r.exitCode ≠ 0 then
        Except.error (Err.commandError ("Failed to delete instance: " ++ r.stderr))
      else Except.ok ()

/-- C6 (code evaluated at the failing input): a `runCommand` whose remote
execution exceeds its 1000ms timeout (the process has not closed when the
timer fires) sends `SIGTERM` to the in-flight process — it is not abandoned —
but the promise rejects with `IncusConnectionError` (code `CONNECTION_ERROR`),
not with the `TimeoutError` kind (code `TIMEOUT`) that `errors.ts` defines and
the repository README documents for this situation. -/
theorem execIncus_timeout_is_connection_error :
    execIncus 1000 { errorEvent := none, closesWithinTimeout := false,
                     stdout := "", stderr := "", exitCode := none } =
      (["SIGTERM"], Except.error (Err.incusConnectionError "Command timed out after 1000ms")) ∧
    (Err.incusConnectionError "Command timed out after 1000ms").code = some "CONNECTION_ERROR" ∧
    (Err.incusConnectionError "Command timed out after 1000ms").code ≠ some "TIMEOUT" := by
  refine ⟨rfl, rfl, by decide⟩

/-- Model of `CommandResult` from `types.ts`. -/
structure CommandResult where
  stdout : String
  stderr : String
  exitCode : Int
  durationMs : Nat
deriving DecidableEq, Repr

/-- Model of `CommandOptions` from `types.ts` (the fields `runCommand` forwards). -/
structure CommandOptions where
  cwd : Option String := none
  env : List (String × String) := []
  user : Option String := none
  timeout : Option Nat := none
deriving DecidableEq, Repr

/-- Environment of one `Sandbox.runCommand` call: the outcome of the fresh
state query `this.getState()` (it throws `SandboxNotFoundError` when the
instance is absent), the settled outcome of the `client.execInInstance` call,
and the wall-clock duration measured around it. -/
structure RunCommandEnv where
  getState : Except Err SandboxState
  exec : Except Err ExecResult
  elapsedMs : Nat

/-- Model of `Sandbox.runCommand` from `sandbox.ts` lines 43-67: requires the sandbox
to be `running` (fresh state query), runs `['sh', '-c', command]` in the guest
and returns stdout/stderr/exit code/duration as data. -/
def Sandbox.runCommand (name command : String) (options : Option CommandOptions)
    (env : RunCommandEnv) : List Op × Except Err CommandResult :=
  match env.getState with
  | Except.error e => ([Op.getState], Except.error e)
  | Except.ok state =>
      if state ≠ SandboxState.running then
        ([Op.getState], Except.error (Err.sandboxNotRunning name))
      else
        let argv := ["sh", "-c", command]
        match env.exec with
        | Except.error e => ([Op.getState, Op.execIn argv], Except.error e)
        | Except.ok result =>
            ([Op.getState, Op.execIn argv],
             Except.ok { stdout := result.stdout, stderr := result.stderr,
                         exitCode := result.exitCode, durationMs := env.elapsedMs })

/-- Timeout `runCommand` hands to `execInInstance`
(`sandbox.ts` line 57: `options?.timeout ?? 30000`). -/
def runCommandTimeout (options : Option CommandOptions) : Nat :=
  (options.bind CommandOptions.timeout).getD 30000

/-- C7: for every command string and every exit code the guest execution
returns — including every non-zero one — `runCommand` on a running sandbox
resolves with a `CommandResult` carrying that exit code as data; it never
raises because of a non-zero exit code. -/
theorem runCommand_exitCode_is_data (name command : String)
    (options : Option CommandOptions) (env : RunCommandEnv) (r : ExecResult)
    (hstate : env.getState = Except.ok SandboxState.running)
    (hexec : env.exec = Except.ok r) :
    (Sandbox.runCommand name command options env).2 =
      Except.ok { stdout := r.stdout, stderr := r.stderr,
                  exitCode := r.exitCode, durationMs := env.elapsedMs } := by
  simp [Sandbox.runCommand, hstate, hexec]

/-- Witness for `runCommand_exitCode_is_data`: `runCommand "exit 42"` on a
running sandbox whose guest execution exits with code 42 returns
`exitCode = 42` as data. -/
theorem runCommand_exitCode_is_data_witness :
    (Sandbox.runCommand "sb" "exit 42" none
        { getState := Except.ok SandboxState.running,
          exec := Except.ok { stdout := "", stderr := "", exitCode := 42 },
          elapsedMs := 5 }).2 =
      Except.ok { stdout := "", stderr := "", exitCode := 42, durationMs := 5 } :=
  runCommand_exitCode_is_data "sb" "exit 42" none _ _ rfl rfl

/-- Model of `SnapshotInfo` from `types.ts`.  `createdAt` keeps the runtime's raw
timestamp string (the `Date` wrapper is irrelevant to the claims). -/
structure SnapshotInfo where
  name : String
  createdAt : String := ""
  stateful : Bool := false
deriving DecidableEq, Repr

/-- Model of `DestroyOptions` from `types.ts`; `none` models an omitted field. -/
structure DestroyOptions where
  force : Option Bool := none
  deleteSnapshots : Option Bool := none
deriving DecidableEq, Repr

/-- Environment of one `Sandbox.destroy` call: the outcome of
`client.listSnapshots` (already parsed; it throws `CommandError` on a non-zero
exit of `incus snapshot list`), the raw exec outcome of each
`incus snapshot delete`, keyed by snapshot name, and the raw exec outcome of
the final `incus delete`. -/
structure DestroyEnv where
  listSnapshots : Except Err (List SnapshotInfo)
  deleteSnapshotExec : String → IncusOutcome
  deleteInstanceExec : IncusOutcome

/-- The `for (const snap of snapshots)` loop of `Sandbox.destroy`
(`sandbox.ts` lines 119-121): deletes each snapshot individually through
`client.deleteSnapshot`, stopping at (and propagating) the first failure. -/
def deleteLoop (env : DestroyEnv) : List SnapshotInfo → List Op × Except Err Unit
  | [] => ([], Except.ok ())
  | snap :: rest =>
      match client.deleteSnapshot (env.deleteSnapshotExec snap.name) with
      | Except.error e => ([Op.deleteSnapshot snap.name], Except.error e)
      | Except.ok _ =>
          let l := deleteLoop env rest
          (Op.deleteSnapshot snap.name :: l.1, l.2)

/-- The snapshot-cascade phase of `Sandbox.destroy` (`sandbox.ts` lines
117-122): runs unless the caller passed `deleteSnapshots: false`. -/
def snapshotPhase (options : Option DestroyOptions) (env : DestroyEnv) :
    List Op × Except Err Unit :=
  if options.bind DestroyOptions.deleteSnapshots ≠ some false then
    match env.listSnapshots with
    | Except.error e => ([Op.listSnapshots], Except.error e)
    | Except.ok snapshots =>
        let l := deleteLoop env snapshots
        (Op.listSnapshots :: l.1, l.2)
  else ([], Except.ok ())

/-- Model of `Sandbox.destroy` from `sandbox.ts` lines 116-125: snapshot cascade, then
`client.deleteInstance(name, options?.force ?? true)`. -/
def Sandbox.destroy (options : Option DestroyOptions) (env : DestroyEnv) :
    List Op × Except Err Unit :=
  let p := snapshotPhase options env
  match p.2 with
  | Except.error e => (p.1, Except.error e)
  | Except.ok _ =>
      (p.1 ++ [Op.deleteInstance ((options.bind DestroyOptions.force).getD true)],
       client.deleteInstance env.deleteInstanceExec)

/-- The loop succeeds exactly when every snapshot's individual deletion
succeeds. -/
theorem deleteLoop_ok_iff (env : DestroyEnv) (l : List SnapshotInfo) :
    (deleteLoop env l).2 = Except.ok () ↔
      ∀ s ∈ l, client.deleteSnapshot (env.deleteSnapshotExec s.name) = Except.ok () := by
  induction l with
  | nil => simp [deleteLoop]
  | cons snap rest ih =>
      simp only [deleteLoop]
      cases h : client.deleteSnapshot (env.deleteSnapshotExec snap.name) with
      | error e => simp [h]
      | ok u => cases u; simp [h, ih]

/-- When every individual deletion succeeds the loop's trace is exactly one
delete operation per snapshot, in list order. -/
theorem deleteLoop_trace (env : DestroyEnv) (l : List SnapshotInfo)
    (h : ∀ s ∈ l, client.deleteSnapshot (env.deleteSnapshotExec s.name) = Except.ok ()) :
    deleteLoop env l = (l.map fun s => Op.deleteSnapshot s.name, Except.ok ()) := by
  induction l with
  | nil => simp [deleteLoop]
  | cons snap rest ih =>
      have hhead := h snap (by simp)
      have htail : ∀ s ∈ rest, client.deleteSnapshot (env.deleteSnapshotExec s.name) = Except.ok () :=
        fun s hs => h s (List.mem_cons_of_mem _ hs)
      simp [deleteLoop, hhead, ih htail]

/-- The loop's trace never contains an instance-delete operation. -/
theorem deleteLoop_no_deleteInstance (env : DestroyEnv) (l : List SnapshotInfo) :
    ∀ f, Op.deleteInstance f ∉ (deleteLoop env l).1 := by
  induction l with
  | nil => simp [deleteLoop]
  | cons snap rest ih =>
      intro f
      simp only [deleteLoop]
      cases h : client.deleteSnapshot (env.deleteSnapshotExec snap.name) with
      | error e => simp
      | ok u => cases u; simpa using ih f

/-- C3: with snapshot deletion enabled (the default) and the snapshot listing
succeeding, (a) if any individual snapshot deletion fails, the destroy aborts
with that error and the instance-delete operation is never invoked in that
run; (b) when all snapshot deletions succeed, the trace is exactly: list the
snapshots, delete each one individually in order, then delete the instance. -/
theorem destroy_snapshot_cascade (options : Option DestroyOptions) (env : DestroyEnv)
    (snaps : List SnapshotInfo)
    (henabled : options.bind DestroyOptions.deleteSnapshots ≠ some false)
    (hlist : env.listSnapshots = Except.ok snaps) :
    ((∃ s ∈ snaps, client.deleteSnapshot (env.deleteSnapshotExec s.name) ≠ Except.ok ()) →
        (∃ e, (Sandbox.destroy options env).2 = Except.error e) ∧
        ∀ f, Op.deleteInstance f ∉ (Sandbox.destroy options env).1) ∧
    ((∀ s ∈ snaps, client.deleteSnapshot (env.deleteSnapshotExec s.name) = Except.ok ()) →
        (Sandbox.destroy options env).1 =
          Op.listSnapshots :: ((snaps.map fun s => Op.deleteSnapshot s.name) ++
            [Op.deleteInstance ((options.bind DestroyOptions.force).getD true)])) := by
  constructor
  · intro hfail
    have hloop : (deleteLoop env snaps).2 ≠ Except.ok () := by
      intro h
      obtain ⟨s, hs, hne⟩ := hfail
      exact hne ((deleteLoop_ok_iff env snaps).1 h s hs)
    obtain ⟨e, he⟩ : ∃ e, (deleteLoop env snaps).2 = Except.error e := by
      cases h : (deleteLoop env snaps).2 with
      | error e => exact ⟨e, rfl⟩
      | ok u => cases u; exact absurd h hloop
    have hphase : snapshotPhase options env =
        (Op.listSnapshots :: (deleteLoop env snaps).1, Except.error e) := by
      simp [snapshotPhase, henabled, hlist, he]
    constructor
    · exact ⟨e, by simp [Sandbox.destroy, hphase]⟩
    · intro f
      simp only [Sandbox.destroy, hphase]
      simpa using deleteLoop_no_deleteInstance env snaps f
  · intro hok
    have := deleteLoop_trace env snaps hok
    simp [Sandbox.destroy, snapshotPhase, henabled, hlist, this]

/-- A concrete destroy environment with two snapshots where deleting
snapshot `a` fails. -/
def destroyEnvFailA : DestroyEnv where
  listSnapshots := Except.ok [{ name := "a" }, { name := "b" }]
  deleteSnapshotExec := fun n =>
    if n = "a" then Except.error (Err.commandError "boom")
    else Except.ok { stdout := "", stderr := "", exitCode := 0 }
  deleteInstanceExec := Except.ok { stdout := "", stderr := "", exitCode := 0 }

/-- Witness for `destroy_snapshot_cascade`: a destroy with two snapshots where
the first deletion fails never reaches the instance delete. -/
theorem destroy_snapshot_cascade_witness :
    (∃ e, (Sandbox.destroy none destroyEnvFailA).2 = Except.error e) ∧
    ∀ f, Op.deleteInstance f ∉ (Sandbox.destroy none destroyEnvFailA).1 :=
  (destroy_snapshot_cascade none destroyEnvFailA [{ name := "a" }, { name := "b" }]
      (by decide) rfl).1
    ⟨{ name := "a" }, by simp, by simp [destroyEnvFailA, client.deleteSnapshot]⟩

/-- C10: when the caller does not explicitly pass `force: false`, the
instance-delete operation `destroy` issues carries `force = true` — even
though `client.deleteInstance` itself defaults its `force` parameter to
`false` (its argv then has no `--force`). -/
theorem destroy_force_defaults_true (options : Option DestroyOptions) (env : DestroyEnv)
    (hforce : options.bind DestroyOptions.force ≠ some false)
    (hphase : (snapshotPhase options env).2 = Except.ok ()) :
    Op.deleteInstance true ∈ (Sandbox.destroy options env).1 ∧
    (∀ f, Op.deleteInstance f ∈ (Sandbox.destroy options env).1 → f = true) ∧
    (∀ nm, client.deleteInstanceArgs nm = ["delete", nm]) := by
  have hget : (options.bind DestroyOptions.force).getD true = true := by
    cases options with
    | none => rfl
    | some o =>
        cases h : o.force with
        | none => simp [Option.bind, h]
        | some b =>
            cases b with
            | false => exact absurd (by simp [Option.bind, h]) hforce
            | true => simp [Option.bind, h]
  have hdes : Sandbox.destroy options env =
      ((snapshotPhase options env).1 ++ [Op.deleteInstance true],
       client.deleteInstance env.deleteInstanceExec) := by
    simp [Sandbox.destroy, hphase, hget]
  have hnophase : ∀ f, Op.deleteInstance f ∉ (snapshotPhase options env).1 := by
    intro f
    simp only [snapshotPhase]
    split
    · cases h : env.listSnapshots with
      | error e => simp [h]
      | ok snaps =>
          simp only [h]
          simpa using deleteLoop_no_deleteInstance env snaps f
    · simp
  refine ⟨by simp [hdes], fun f hf => ?_, fun nm => rfl⟩
  rw [hdes] at hf
  rcases List.mem_append.1 hf with h | h
  · exact absurd h (hnophase f)
  · simpa using (List.mem_singleton.1 h)

/-- A concrete destroy environment with no snapshots where everything
succeeds. -/
def destroyEnvEmpty : DestroyEnv where
  listSnapshots := Except.ok []
  deleteSnapshotExec := fun _ => Except.ok { stdout := "", stderr := "", exitCode := 0 }
  deleteInstanceExec := Except.ok { stdout := "", stderr := "", exitCode := 0 }

/-- Witness for `destroy_force_defaults_true`: a destroy called with no
options and no snapshots issues `deleteInstance` with `force = true`. -/
theorem destroy_force_defaults_true_witness :
    Op.deleteInstance true ∈ (Sandbox.destroy none destroyEnvEmpty).1 :=
  (destroy_force_defaults_true none destroyEnvEmpty (by decide) rfl).1

/-- Model of `MountOptions` from `types.ts`. -/
structure MountOptions where
  source : String
  target : String
  mode : Option MountMode := none
  shift : Option Bool := none
deriving DecidableEq, Repr

/-- Model of `MountInfo` from `types.ts`. -/
structure MountInfo where
  source : String
  target : String
  mode : MountMode
  device : String
deriving DecidableEq, Repr

/-- The syscall-interception config keys used by `Sandbox.mount`
(`sandbox.ts` lines 168-171). -/
def interceptKey : String := "security.syscalls.intercept.mount"

/-- The allow-list config key set alongside `interceptKey`. -/
def interceptAllowedKey : String := "security.syscalls.intercept.mount.allowed"

/-- Environment of one `Sandbox.mount` call: whether `fs.access` finds the
host source, the outcome of the fresh state query, and the raw exec outcome of
each incus invocation the overlay path can issue, in program order.
`pollStates` is the sequence of state-query outcomes the bounded post-restart
wait loop observes (the 30-second wall-clock window is abstracted as the list
running out). -/
structure MountEnv where
  sourceExists : Bool
  getState : Except Err SandboxState
  interceptGet : IncusOutcome
  interceptSet : IncusOutcome
  allowedSet : IncusOutcome
  restartExec : IncusOutcome
  pollStates : List (Except Err SandboxState)
  addDevice : IncusOutcome
  mkdirExec : IncusOutcome
  mountExec : IncusOutcome
  removeDevice : IncusOutcome

/-- The wait loop of `Sandbox.mount` (`sandbox.ts` lines 173-178): re-query
the state every 500ms until it reads `running` or 30s elapse; a thrown state
query propagates; running out of the window is not an error. -/
def waitForRunning : List (Except Err SandboxState) → List Op × Except Err Unit
  | [] => ([], Except.ok ())
  | o :: rest =>
      match o with
      | Except.error e => ([Op.getState], Except.error e)
      | Except.ok st =>
          if st = SandboxState.running then ([Op.getState], Except.ok ())
          else
            let l := waitForRunning rest
            (Op.getState :: l.1, l.2)

/-- Lines 168-179 of `sandbox.ts`: read the current value of the
syscall-interception-for-mount key; only when it is not `'true'` write the two
intercept keys, restart the instance and wait for it to come back up. -/
def ensureIntercept (env : MountEnv) : List Op × Except Err Unit :=
  let getOps := [Op.getConfig interceptKey]
  match client.getInstanceConfig env.interceptGet with
  | Except.error e => (getOps, Except.error e)
  | Except.ok currentIntercept =>
      if currentIntercept ≠ some "true" then
        let ops1 := getOps ++ [Op.setConfig interceptKey "true"]
        match client.setInstanceConfig interceptKey env.interceptSet with
        | Except.error e => (ops1, Except.error e)
        | Except.ok _ =>
            let ops2 := ops1 ++ [Op.setConfig interceptAllowedKey "overlay"]
            match client.setInstanceConfig interceptAllowedKey env.allowedSet with
            | Except.error e => (ops2, Except.error e)
            | Except.ok _ =>
                let ops3 := ops2 ++ [Op.restartInstance]
                match client.restartInstance env.restartExec with
                | Except.error e => (ops3, Except.error e)
                | Except.ok _ =>
                    let w := waitForRunning env.pollStates
                    (ops3 ++ w.1, w.2)
      else (getOps, Except.ok ())

/-- Lines 181-228 of `sandbox.ts` (the overlay steps after the intercept
check): bind the source read-only at the hidden base path, create the
work/upper directories and the target inside the guest, then issue the guest
overlay mount; if the mkdir or the mount exits non-zero, remove the device
binding (its own failure swallowed by `.catch`) and raise `MountError`
carrying the failing command's stderr. -/
def overlaySteps (deviceName : String) (options : MountOptions) (shift : Bool)
    (env : MountEnv) : List Op × Except Err MountInfo :=
  let basePath := "/.overlay-base/" ++ deviceName
  let workDir := "/.overlay-work/" ++ deviceName
  let addOp := Op.addDiskDevice deviceName options.source basePath true shift
  match client.addDiskDevice env.addDevice with
  | Except.error e => ([addOp], Except.error e)
  | Except.ok _ =>
      let mkdirArgv := ["mkdir", "-p", workDir ++ "/upper", workDir ++ "/work", options.target]
      match env.mkdirExec with
      | Except.error e => ([addOp, Op.execIn mkdirArgv], Except.error e)
      | Except.ok mkdirResult =>
          if mkdirResult.exitCode ≠ 0 then
            ([addOp, Op.execIn mkdirArgv, Op.removeDiskDevice deviceName],
             Except.error (Err.mountError
               ("Failed to create overlay directories: " ++ mkdirResult.stderr)))
          else
            let mountArgv := ["mount", "-t", "overlay", "overlay", "-o",
              "lowerdir=" ++ basePath ++ ",upperdir=" ++ workDir ++
                "/upper,workdir=" ++ workDir ++ "/work",
              options.target]
            match env.mountExec with
            | Except.error e =>
                ([addOp, Op.execIn mkdirArgv, Op.execIn mountArgv], Except.error e)
            | Except.ok mountResult =>
                if mountResult.exitCode ≠ 0 then
                  ([addOp, Op.execIn mkdirArgv, Op.execIn mountArgv,
                    Op.removeDiskDevice deviceName],
                   Except.error (Err.mountError
                     ("Failed to mount overlay: " ++ mountResult.stderr)))
                else
                  ([addOp, Op.execIn mkdirArgv, Op.execIn mountArgv],
                   Except.ok { source := options.source, target := options.target,
                               mode := MountMode.overlay, device := deviceName })

/-- Model of `Sandbox.mount` from `sandbox.ts` lines 143-229.  `deviceName` is the
generated `mount-<nanoid(6)>` identifier.  Mode defaults to `overlay`; the
host source must exist (`PathNotFoundError`), the instance must be `running`
(`SandboxNotRunningError`), and overlay mode on a VM raises `MountError`
before anything else is issued. -/
def Sandbox.mount (name : String) (ty : SandboxType) (deviceName : String)
    (options : MountOptions) (env : MountEnv) : List Op × Except Err MountInfo :=
  let mode := options.mode.getD MountMode.overlay
  let shift := options.shift == some true
  let ops0 := [Op.accessSource options.source]
  if env.sourceExists = false then
    (ops0, Except.error (Err.pathNotFound options.source))
  else
    let ops1 := ops0 ++ [Op.getState]
    match env.getState with
    | Except.error e => (ops1, Except.error e)
    | Except.ok state =>
        if state ≠ SandboxState.running then
          (ops1, Except.error (Err.sandboxNotRunning name))
        else
          match mode with
          | MountMode.overlay =>
              if ty = SandboxType.vm then
                (ops1, Except.error (Err.mountError
                  "Overlay mode is not supported for VMs, use readonly or readwrite mode"))
              else
                let i := ensureIntercept env
                match i.2 with
                | Except.error e => (ops1 ++ i.1, Except.error e)
                | Except.ok _ =>
                    let o := overlaySteps deviceName options shift env
                    (ops1 ++ i.1 ++ o.1, o.2)
          | MountMode.readonly =>
              let addOp := Op.addDiskDevice deviceName options.source options.target true shift
              match client.addDiskDevice env.addDevice with
              | Except.error e => (ops1 ++ [addOp], Except.error e)
              | Except.ok _ =>
                  (ops1 ++ [addOp],
                   Except.ok { source := options.source, target := options.target,
                               mode := MountMode.readonly, device := deviceName })
          | MountMode.readwrite =>
              let addOp := Op.addDiskDevice deviceName options.source options.target false shift
              match client.addDiskDevice env.addDevice with
              | Except.error e => (ops1 ++ [addOp], Except.error e)
              | Except.ok _ =>
                  (ops1 ++ [addOp],
                   Except.ok { source := options.source, target := options.target,
                               mode := MountMode.readwrite, device := deviceName })

/-- C5: an overlay-mode mount (the default mode) on a VM-type sandbox that is
running and whose source exists raises `MountError` with the trace ending at
the state check, so no device-add operation is ever issued. -/
theorem mount_vm_overlay_rejected (name deviceName : String) (options : MountOptions)
    (env : MountEnv)
    (hsrc : env.sourceExists = true)
    (hstate : env.getState = Except.ok SandboxState.running)
    (hmode : options.mode.getD MountMode.overlay = MountMode.overlay) :
    Sandbox.mount name SandboxType.vm deviceName options env =
      ([Op.accessSource options.source, Op.getState],
       Except.error (Err.mountError
         "Overlay mode is not supported for VMs, use readonly or readwrite mode")) ∧
    ∀ d s p ro sh, Op.addDiskDevice d s p ro sh ∉
      (Sandbox.mount name SandboxType.vm deviceName options env).1 := by
  have h : Sandbox.mount name SandboxType.vm deviceName options env =
      ([Op.accessSource options.source, Op.getState],
       Except.error (Err.mountError
         "Overlay mode is not supported for VMs, use readonly or readwrite mode")) := by
    unfold Sandbox.mount
    simp [hsrc, hstate, hmode]
  exact ⟨h, fun d s p ro sh => by simp [h]⟩

/-- Witness for `mount_vm_overlay_rejected` at a concrete environment. -/
theorem mount_vm_overlay_rejected_witness :
    Sandbox.mount "sb" SandboxType.vm "mount-abc123"
        { source := "/host/data", target := "/workspace" }
        { sourceExists := true, getState := Except.ok SandboxState.running,
          interceptGet := Except.ok { stdout := "", stderr := "", exitCode := 1 },
          interceptSet := Except.ok { stdout := "", stderr := "", exitCode := 0 },
          allowedSet := Except.ok { stdout := "", stderr := "", exitCode := 0 },
          restartExec := Except.ok { stdout := "", stderr := "", exitCode := 0 },
          pollStates := [], addDevice := Except.ok { stdout := "", stderr := "", exitCode := 0 },
          mkdirExec := Except.ok { stdout := "", stderr := "", exitCode := 0 },
          mountExec := Except.ok { stdout := "", stderr := "", exitCode := 0 },
          removeDevice := Except.ok { stdout := "", stderr := "", exitCode := 0 } } =
      ([Op.accessSource "/host/data", Op.getState],
       Except.error (Err.mountError
         "Overlay mode is not supported for VMs, use readonly or readwrite mode")) :=
  (mount_vm_overlay_rejected "sb" "mount-abc123"
      { source := "/host/data", target := "/workspace" } _ rfl rfl rfl).1

/-- When the intercept key already reads `'true'`, the intercept phase is just
the one config read: nothing is written and no restart is issued. -/
theorem ensureIntercept_already_true (env : MountEnv)
    (htrue : client.getInstanceConfig env.interceptGet = Except.ok (some "true")) :
    ensureIntercept env = ([Op.getConfig interceptKey], Except.ok ()) := by
  simp [ensureIntercept, htrue]

/-- Every operation the overlay construction steps issue is a device add, a
guest exec, or a device remove — never a config write or a restart. -/
theorem overlaySteps_ops (deviceName : String) (options : MountOptions) (shift : Bool)
    (env : MountEnv) :
    ∀ op ∈ (overlaySteps deviceName options shift env).1,
      (∀ k v, op ≠ Op.setConfig k v) ∧ op ≠ Op.restartInstance := by
  intro op hop
  unfold overlaySteps at hop
  cases h1 : client.addDiskDevice env.addDevice with
  | error e =>
      rw [h1] at hop
      simp only [List.mem_singleton] at hop
      subst hop
      exact ⟨fun k v => by simp, by simp⟩
  | ok u =>
      rw [h1] at hop
      cases h2 : env.mkdirExec with
      | error e =>
          rw [h2] at hop
          simp only [List.mem_cons, List.mem_singleton, List.not_mem_nil, or_false] at hop
          rcases hop with rfl | rfl <;> exact ⟨fun k v => by simp, by simp⟩
      | ok r =>
          rw [h2] at hop
          by_cases hc : r.exitCode = 0
          · simp only [hc, ne_eq, not_true_eq_false, if_neg, ite_false, if_false] at hop
            cases h3 : env.mountExec with
            | error e =>
                rw [h3] at hop
                simp only [List.mem_cons, List.mem_singleton, List.not_mem_nil, or_false] at hop
                rcases hop with rfl | rfl | rfl <;> exact ⟨fun k v => by simp, by simp⟩
            | ok m =>
                rw [h3] at hop
                by_cases hm : m.exitCode = 0
                · simp only [hm, ne_eq, not_true_eq_false, ite_false, if_false] at hop
                  simp only [List.mem_cons, List.mem_singleton, List.not_mem_nil, or_false] at hop
                  rcases hop with rfl | rfl | rfl <;> exact ⟨fun k v => by simp, by simp⟩
                · simp only [hm, ne_eq, not_false_eq_true, ite_true, if_true] at hop
                  simp only [List.mem_cons, List.mem_singleton, List.not_mem_nil, or_false] at hop
                  rcases hop with rfl | rfl | rfl | rfl <;> exact ⟨fun k v => by simp, by simp⟩
          · simp only [hc, ne_eq, not_false_eq_true, ite_true, if_true] at hop
            simp only [List.mem_cons, List.mem_singleton, List.not_mem_nil, or_false] at hop
            rcases hop with rfl | rfl | rfl <;> exact ⟨fun k v => by simp, by simp⟩

/-- C4: for every mount on an instance whose syscall-interception-for-mount
config key already reads `'true'`, the operation never writes any config key
and never restarts the instance (for any sandbox type and any mode), so the
enable-and-restart path is taken only when the current value is not `'true'`. -/
theorem mount_intercept_sticky (name deviceName : String) (ty : SandboxType)
    (options : MountOptions) (env : MountEnv)
    (htrue : client.getInstanceConfig env.interceptGet = Except.ok (some "true")) :
    (∀ k v, Op.setConfig k v ∉ (Sandbox.mount name ty deviceName options env).1) ∧
    Op.restartInstance ∉ (Sandbox.mount name ty deviceName options env).1 := by
  have hall : ∀ op ∈ (Sandbox.mount name ty deviceName options env).1,
      (∀ k v, op ≠ Op.setConfig k v) ∧ op ≠ Op.restartInstance := by
    intro op hop
    unfold Sandbox.mount at hop
    by_cases hs : env.sourceExists = false
    · simp only [hs, ite_true, if_true, List.mem_singleton] at hop
      subst hop
      exact ⟨fun k v => by simp, by simp⟩
    · simp only [hs, ite_false, if_false] at hop
      cases hg : env.getState with
      | error e =>
          rw [hg] at hop
          simp at hop
          rcases hop with rfl | rfl <;> exact ⟨fun k v => by simp, by simp⟩
      | ok st =>
          rw [hg] at hop
          by_cases hr : st = SandboxState.running
          · subst hr
            simp only [ne_eq, not_true_eq_false, ite_false, if_false] at hop
            cases hm : options.mode.getD MountMode.overlay with
            | overlay =>
                rw [hm] at hop
                by_cases hv : ty = SandboxType.vm
                · simp only [hv, ite_true, if_true] at hop
                  simp at hop
                  rcases hop with rfl | rfl <;> exact ⟨fun k v => by simp, by simp⟩
                · simp only [hv, ite_false, if_false,
                    ensureIntercept_already_true env htrue] at hop
                  simp at hop
                  rcases hop with rfl | rfl | rfl | hop
                  · exact ⟨fun k v => by simp, by simp⟩
                  · exact ⟨fun k v => by simp, by simp⟩
                  · exact ⟨fun k v => by simp, by simp⟩
                  · exact overlaySteps_ops deviceName options (options.shift == some true) env op hop
            | readonly =>
                rw [hm] at hop
                cases ha : client.addDiskDevice env.addDevice with
                | error e =>
                    rw [ha] at hop
                    simp at hop
                    rcases hop with rfl | rfl | rfl <;> exact ⟨fun k v => by simp, by simp⟩
                | ok u =>
                    rw [ha] at hop
                    simp at hop
                    rcases hop with rfl | rfl | rfl <;> exact ⟨fun k v => by simp, by simp⟩
            | readwrite =>
                rw [hm] at hop
                cases ha : client.addDiskDevice env.addDevice with
                | error e =>
                    rw [ha] at hop
                    simp at hop
                    rcases hop with rfl | rfl | rfl <;> exact ⟨fun k v => by simp, by simp⟩
                | ok u =>
                    rw [ha] at hop
                    simp at hop
                    rcases hop with rfl | rfl | rfl <;> exact ⟨fun k v => by simp, by simp⟩
          · simp only [ne_eq, hr, not_false_eq_true, ite_true, if_true] at hop
            simp at hop
            rcases hop with rfl | rfl <;> exact ⟨fun k v => by simp, by simp⟩
  exact ⟨fun k v hmem => (hall _ hmem).1 k v rfl, fun hmem => (hall _ hmem).2 rfl⟩

/-- A concrete mount environment in which the intercept key already reads
`'true'` and every guest step succeeds. -/
def mountEnvInterceptTrue : MountEnv where
  sourceExists := true
  getState := Except.ok SandboxState.running
  interceptGet := Except.ok { stdout := "true", stderr := "", exitCode := 0 }
  interceptSet := Except.ok { stdout := "", stderr := "", exitCode := 0 }
  allowedSet := Except.ok { stdout := "", stderr := "", exitCode := 0 }
  restartExec := Except.ok { stdout := "", stderr := "", exitCode := 0 }
  pollStates := []
  addDevice := Except.ok { stdout := "", stderr := "", exitCode := 0 }
  mkdirExec := Except.ok { stdout := "", stderr := "", exitCode := 0 }
  mountExec := Except.ok { stdout := "", stderr := "", exitCode := 0 }
  removeDevice := Except.ok { stdout := "", stderr := "", exitCode := 0 }

/-- Witness for `mount_intercept_sticky`: an overlay mount on a container
whose intercept key already reads `'true'` issues no config write and no
restart. -/
theorem mount_intercept_sticky_witness :
    (∀ k v, Op.setConfig k v ∉ (Sandbox.mount "sb" SandboxType.container "mount-abc123"
        { source := "/host/data", target := "/workspace" } mountEnvInterceptTrue).1) ∧
    Op.restartInstance ∉ (Sandbox.mount "sb" SandboxType.container "mount-abc123"
        { source := "/host/data", target := "/workspace" } mountEnvInterceptTrue).1 :=
  mount_intercept_sticky "sb" "mount-abc123" SandboxType.container
    { source := "/host/data", target := "/workspace" } mountEnvInterceptTrue rfl

/-- C2: for an overlay mount on a container that reaches the overlay
construction (source exists, instance running, intercept phase succeeded,
base device bound), a non-zero exit of the guest-side mkdir step — or of the
guest-side overlay mount step — makes the operation issue a removal of the
base device binding and raise `MountError` whose message carries that failing
guest command's captured stderr. -/
theorem mount_rollback_on_guest_failure (name deviceName : String)
    (options : MountOptions) (env : MountEnv)
    (hsrc : env.sourceExists = true)
    (hstate : env.getState = Except.ok SandboxState.running)
    (hmode : options.mode.getD MountMode.overlay = MountMode.overlay)
    (hint : (ensureIntercept env).2 = Except.ok ())
    (hadd : client.addDiskDevice env.addDevice = Except.ok ()) :
    (∀ r, env.mkdirExec = Except.ok r → r.exitCode ≠ 0 →
      (Sandbox.mount name SandboxType.container deviceName options env).2 =
        Except.error (Err.mountError
          ("Failed to create overlay directories: " ++ r.stderr)) ∧
      Op.removeDiskDevice deviceName ∈
        (Sandbox.mount name SandboxType.container deviceName options env).1) ∧
    (∀ r m, env.mkdirExec = Except.ok r → r.exitCode = 0 →
      env.mountExec = Except.ok m → m.exitCode ≠ 0 →
      (Sandbox.mount name SandboxType.container deviceName options env).2 =
        Except.error (Err.mountError ("Failed to mount overlay: " ++ m.stderr)) ∧
      Op.removeDiskDevice deviceName ∈
        (Sandbox.mount name SandboxType.container deviceName options env).1) := by
  have hmount : Sandbox.mount name SandboxType.container deviceName options env =
      ([Op.accessSource options.source, Op.getState] ++ (ensureIntercept env).1 ++
        (overlaySteps deviceName options (options.shift == some true) env).1,
       (overlaySteps deviceName options (options.shift == some true) env).2) := by
    unfold Sandbox.mount
    rcases hi : ensureIntercept env with ⟨iops, ir⟩
    rw [hi] at hint
    simp only at hint
    subst hint
    simp [hsrc, hstate, hmode, hi]
  constructor
  · intro r hr hne
    have hover : overlaySteps deviceName options (options.shift == some true) env =
        ([Op.addDiskDevice deviceName options.source ("/.overlay-base/" ++ deviceName)
            true (options.shift == some true),
          Op.execIn ["mkdir", "-p", "/.overlay-work/" ++ deviceName ++ "/upper",
            "/.overlay-work/" ++ deviceName ++ "/work", options.target],
          Op.removeDiskDevice deviceName],
         Except.error (Err.mountError
           ("Failed to create overlay directories: " ++ r.stderr))) := by
      unfold overlaySteps
      simp [hadd, hr, hne]
    rw [hmount, hover]
    exact ⟨rfl, by simp⟩
  · intro r m hr hzero hm hne
    have hover : (overlaySteps deviceName options (options.shift == some true) env).2 =
        Except.error (Err.mountError ("Failed to mount overlay: " ++ m.stderr)) ∧
        Op.removeDiskDevice deviceName ∈
          (overlaySteps deviceName options (options.shift == some true) env).1 := by
      unfold overlaySteps
      simp [hadd, hr, hzero, hm, hne]
    rw [hmount]
    exact ⟨hover.1, by simp [hover.2]⟩

/-- A concrete mount environment where the intercept key is unset, enabling
succeeds, the base device binds, but the guest mkdir exits 1. -/
def mountEnvMkdirFails : MountEnv where
  sourceExists := true
  getState := Except.ok SandboxState.running
  interceptGet := Except.ok { stdout := "", stderr := "", exitCode := 1 }
  interceptSet := Except.ok { stdout := "", stderr := "", exitCode := 0 }
  allowedSet := Except.ok { stdout := "", stderr := "", exitCode := 0 }
  restartExec := Except.ok { stdout := "", stderr := "", exitCode := 0 }
  pollStates := [Except.ok SandboxState.running]
  addDevice := Except.ok { stdout := "", stderr := "", exitCode := 0 }
  mkdirExec := Except.ok { stdout := "", stderr := "read-only file system", exitCode := 1 }
  mountExec := Except.ok { stdout := "", stderr := "", exitCode := 0 }
  removeDevice := Except.ok { stdout := "", stderr := "", exitCode := 0 }

/-- Witness for `mount_rollback_on_guest_failure`: with the guest mkdir
exiting 1, the mount removes the base device binding and raises `MountError`
carrying the mkdir's stderr. -/
theorem mount_rollback_on_guest_failure_witness :
    (Sandbox.mount "sb" SandboxType.container "mount-abc123"
        { source := "/host/data", target := "/workspace" } mountEnvMkdirFails).2 =
      Except.error (Err.mountError
        "Failed to create overlay directories: read-only file system") ∧
    Op.removeDiskDevice "mount-abc123" ∈
      (Sandbox.mount "sb" SandboxType.container "mount-abc123"
        { source := "/host/data", target := "/workspace" } mountEnvMkdirFails).1 :=
  (mount_rollback_on_guest_failure "sb" "mount-abc123"
      { source := "/host/data", target := "/workspace" } mountEnvMkdirFails
      rfl rfl rfl rfl rfl).1
    { stdout := "", stderr := "read-only file system", exitCode := 1 } rfl (by decide)

/-- One entry of `LANGUAGE_COMMANDS` in `types.ts`: a fixed file extension and
interpreter invocation per language tag. -/
structure LangConfig where
  ext : String
  cmd : String
deriving DecidableEq, Repr

/-- Model of `LANGUAGE_COMMANDS` from `types.ts` lines 137-143.  The TypeScript record
is keyed by the closed `Language` union; at runtime it is a plain object, so
looking up any other string yields `undefined` (here `none`). -/
def LANGUAGE_COMMANDS : String → Option LangConfig
  | "python" => some { ext := "py", cmd := "python3" }
  | "node" => some { ext := "js", cmd := "node" }
  | "bash" => some { ext := "sh", cmd := "bash" }
  | "ruby" => some { ext := "rb", cmd := "ruby" }
  | "go" => some { ext := "go", cmd := "go run" }
  | _ => none

/-- Model of `CodeOptions` from `types.ts`.  `language` carries the runtime value of
the language tag. -/
structure CodeOptions where
  language : String
  timeout : Option Nat := none
  env : List (String × String) := []
deriving DecidableEq, Repr

/-- Model of `CodeResult` from `types.ts`. -/
structure CodeResult where
  output : String
  exitCode : Int
  language : String
  durationMs : Nat
deriving DecidableEq, Repr

/-- Environment of one `Sandbox.runCode` call: the generated `nanoid()` part
of the temp file name, the outcome of the `fs.writeFile` staging step, the
environment of the inner `runCommand`, and the measured duration. -/
structure RunCodeEnv where
  nanoidVal : String
  writeFile : Except Err Unit
  run : RunCommandEnv
  elapsedMs : Nat

/-- Model of `Sandbox.runCode` from `sandbox.ts` lines 69-94.  The very first step,
`LANGUAGE_COMMANDS[options.language].ext`, reads a property of `undefined`
when the tag is outside the supported set, so a plain `TypeError` is thrown
before any staging or execution; otherwise the code is staged at a temp path
built from the tag's fixed extension, run via `interpreter tempPath` through
`runCommand`, and the temp file removal is attempted in a `finally` step whose
failures are swallowed. -/
def Sandbox.runCode (name code : String) (options : CodeOptions)
    (env : RunCodeEnv) : List Op × Except Err CodeResult :=
  match LANGUAGE_COMMANDS options.language with
  | none =>
      ([], Except.error (Err.typeError "Cannot read properties of undefined (reading ext)"))
  | some langConfig =>
      let tempFile := "/tmp/code-" ++ env.nanoidVal ++ "." ++ langConfig.ext
      let writeOp := Op.writeFile tempFile code
      match env.writeFile with
      | Except.error e => ([writeOp], Except.error e)
      | Except.ok _ =>
          let cmdParts := jsSplitChar ' ' langConfig.cmd
          let fullCommand := jsJoin " " (cmdParts ++ [tempFile])
          let r := Sandbox.runCommand name fullCommand
            (some { timeout := some (options.timeout.getD 30000), env := options.env })
            env.run
          let rmOp := Op.execIn ["rm", "-f", tempFile]
          match r.2 with
          | Except.error e => (writeOp :: r.1 ++ [rmOp], Except.error e)
          | Except.ok result =>
              (writeOp :: r.1 ++ [rmOp],
               Except.ok { output := result.stdout ++ result.stderr,
                           exitCode := result.exitCode,
                           language := options.language,
                           durationMs := env.elapsedMs })

/-- A concrete `runCode` environment for the unsupported-tag counterexample. -/
def runCodeEnvIdle : RunCodeEnv where
  nanoidVal := "x1y2z3"
  writeFile := Except.ok ()
  run := { getState := Except.ok SandboxState.running,
           exec := Except.ok { stdout := "", stderr := "", exitCode := 0 },
           elapsedMs := 1 }
  elapsedMs := 1

/-- C8 counterexample: `runCode` with the unsupported tag `"haskell"` does not
raise a clear, typed, descriptive error — it fails with a bare JavaScript
`TypeError` (reading `.ext` of `undefined`) that carries no SDK error code and
whose message never names the offending tag (though it does fail before any
operation is issued). -/
theorem runCode_unsupported_counterexample :
    Sandbox.runCode "sb" "main = putStrLn \"hi\"" { language := "haskell" } runCodeEnvIdle =
      ([], Except.error (Err.typeError "Cannot read properties of undefined (reading ext)")) ∧
    (Err.typeError "Cannot read properties of undefined (reading ext)").code = none ∧
    jsIncludes "Cannot read properties of undefined (reading ext)" "haskell" = false := by
  exact ⟨rfl, rfl, by decide⟩

/-- C8 as amended: an unsupported tag makes `runCode` fail with the generic
runtime `TypeError` before any operation is issued (no staging, no
execution); every supported tag uses its fixed extension/interpreter pair:
the temp file carries the tag's extension and the guest command invoked is
`interpreter tempPath`. -/
theorem runCode_language_handling (name code : String) (options : CodeOptions)
    (env : RunCodeEnv) :
    (LANGUAGE_COMMANDS options.language = none →
      Sandbox.runCode name code options env =
        ([], Except.error (Err.typeError
          "Cannot read properties of undefined (reading ext)"))) ∧
    (∀ cfg, LANGUAGE_COMMANDS options.language = some cfg →
      env.writeFile = Except.ok () →
      Op.writeFile ("/tmp/code-" ++ env.nanoidVal ++ "." ++ cfg.ext) code ∈
        (Sandbox.runCode name code options env).1 ∧
      (env.run.getState = Except.ok SandboxState.running →
        Op.execIn ["sh", "-c", jsJoin " " (jsSplitChar ' ' cfg.cmd ++
          ["/tmp/code-" ++ env.nanoidVal ++ "." ++ cfg.ext])] ∈
          (Sandbox.runCode name code options env).1)) := by
  constructor
  · intro hnone
    unfold Sandbox.runCode
    rw [hnone]
  · intro cfg hcfg hwrite
    have hrc : Sandbox.runCode name code options env =
        (Op.writeFile ("/tmp/code-" ++ env.nanoidVal ++ "." ++ cfg.ext) code ::
          (Sandbox.runCommand name
            (jsJoin " " (jsSplitChar ' ' cfg.cmd ++
              ["/tmp/code-" ++ env.nanoidVal ++ "." ++ cfg.ext]))
            (some { timeout := some (options.timeout.getD 30000), env := options.env })
            env.run).1 ++
          [Op.execIn ["rm", "-f", "/tmp/code-" ++ env.nanoidVal ++ "." ++ cfg.ext]],
         (Sandbox.runCode name code options env).2) := by
      unfold Sandbox.runCode
      rw [hcfg, hwrite]
      simp only
      cases hres : (Sandbox.runCommand name
          (jsJoin " " (jsSplitChar ' ' cfg.cmd ++
            ["/tmp/code-" ++ env.nanoidVal ++ "." ++ cfg.ext]))
          (some { timeout := some (options.timeout.getD 30000), env := options.env })
          env.run).2 with
      | error e => simp [LANGUAGE_COMMANDS, hcfg, hwrite, hres]
      | ok result => simp [LANGUAGE_COMMANDS, hcfg, hwrite, hres]
    constructor
    · rw [hrc]; simp
    · intro hstate
      have hcmd : Op.execIn ["sh", "-c", jsJoin " " (jsSplitChar ' ' cfg.cmd ++
          ["/tmp/code-" ++ env.nanoidVal ++ "." ++ cfg.ext])] ∈
          (Sandbox.runCommand name
            (jsJoin " " (jsSplitChar ' ' cfg.cmd ++
              ["/tmp/code-" ++ env.nanoidVal ++ "." ++ cfg.ext]))
            (some { timeout := some (options.timeout.getD 30000), env := options.env })
            env.run).1 := by
        unfold Sandbox.runCommand
        rw [hstate]
        simp only [ne_eq, not_true_eq_false, ite_false, if_false]
        cases env.run.exec <;> simp
      rw [hrc]
      simp [hcmd]

/-- Witness for `runCode_language_handling`: the supported tag `"python"`
stages to a `.py` temp file and invokes `python3` on it. -/
theorem runCode_language_handling_witness :
    Op.writeFile "/tmp/code-x1y2z3.py" "print(2+2)" ∈
      (Sandbox.runCode "sb" "print(2+2)" { language := "python" } runCodeEnvIdle).1 :=
  ((runCode_language_handling "sb" "print(2+2)"
      { language := "python" } runCodeEnvIdle).2
    { ext := "py", cmd := "python3" } rfl rfl).1

/-- The lazy capture group `(.+?)` of the regex `/on (.+?) type overlay/`
(`sandbox.ts` line 267): consume at least one non-newline character, stopping
as soon as the literal `" type overlay"` follows (the accumulator holds the
capture reversed). -/
def lazyCapture : List Char → List Char → Option (List Char)
  | [], _ => none
  | c :: rest, acc =>
      if c = '\n' then none
      else if (" type overlay".toList).isPrefixOf rest then some (c :: acc).reverse
      else lazyCapture rest (c :: acc)

/-- Scanning part of `line.match` with the overlay regex: the leftmost start
position at which the whole pattern matches wins; at each start the literal
`"on "` must match, then the lazy capture. -/
def matchOverlayAux : List Char → Option (List Char)
  | [] => none
  | c :: rest =>
      if ("on ".toList).isPrefixOf (c :: rest) then
        match lazyCapture rest.tail.tail [] with
        | some cap => some cap
        | none => matchOverlayAux rest
      else matchOverlayAux rest

/-- Capture group 1 of `line.match(/on (.+?) type overlay/)`, the recovered
overlay target. -/
def matchOverlayTarget (line : String) : Option String :=
  (matchOverlayAux line.toList).map String.mk

/-- Sanity check of the regex model on a realistic guest mount-table line. -/
theorem matchOverlayTarget_sample :
    matchOverlayTarget "overlay on /workspace type overlay (rw,relatime)" =
      some "/workspace" := by decide

/-- One parsed device of `client.listDevices` output
(`client.ts` lines 356-385). -/
structure DeviceEntry where
  type : String
  source : Option String := none
  path : Option String := none
  readonly : Option String := none
  shift : Option String := none
deriving DecidableEq, Repr

/-- The `for (const [deviceName, device] of Object.entries(devices))` loop of
`Sandbox.listMounts` (`sandbox.ts` lines 251-284).  `mountExec` gives the
outcome of the `execInInstance(name, ['mount'])` call issued while processing
an overlay device.  For an overlay device, `target` starts as
`device.path || ''` (the hidden base path) and is overwritten only when a
mount-table line referencing this device's upper directory matches the regex;
a device is pushed only when its source and target are truthy. -/
def listMountsLoop (mountExec : String → Except Err ExecResult) :
    List (String × DeviceEntry) → Except Err (List MountInfo)
  | [] => Except.ok []
  | (deviceName, device) :: rest =>
      if device.type ≠ "disk" ∨ jsStartsWith deviceName "mount-" = false then
        listMountsLoop mountExec rest
      else
        let target0 := device.path.getD ""
        let isOverlayPath := match device.path with
          | some p => jsStartsWith p "/.overlay-base/"
          | none => false
        if isOverlayPath then
          -- device.path.replace('/.overlay-base/', ''): under the startsWith
          -- guard the first occurrence is the leading one, so this strips it
          let overlayDevice := strDrop (device.path.getD "") ("/.overlay-base/".length)
          match mountExec deviceName with
          | Except.error e => Except.error e
          | Except.ok mountsOutput =>
              let needle := "/.overlay-work/" ++ overlayDevice ++ "/upper"
              let overlayLine := (jsSplitChar '\n' mountsOutput.stdout).find?
                (fun line => jsIncludes line needle)
              let target := match overlayLine with
                | some line =>
                    match matchOverlayTarget line with
                    | some t => if t ≠ "" then t else target0
                    | none => target0
                | none => target0
              match listMountsLoop mountExec rest with
              | Except.error e => Except.error e
              | Except.ok tail =>
                  Except.ok (if device.source.getD "" ≠ "" ∧ target ≠ "" then
                    { source := device.source.getD "", target := target,
                      mode := MountMode.overlay, device := deviceName } :: tail
                  else tail)
        else
          let mode := if device.readonly = some "true" then MountMode.readonly
            else MountMode.readwrite
          match listMountsLoop mountExec rest with
          | Except.error e => Except.error e
          | Except.ok tail =>
              Except.ok (if device.source.getD "" ≠ "" ∧ target0 ≠ "" then
                { source := device.source.getD "", target := target0,
                  mode := mode, device := deviceName } :: tail
              else tail)

/-- Model of `Sandbox.listMounts` from `sandbox.ts` lines 247-287, given the parsed
device map from `client.listDevices` (object entry order preserved). -/
def Sandbox.listMounts (devices : List (String × DeviceEntry))
    (mountExec : String → Except Err ExecResult) : Except Err (List MountInfo) :=
  listMountsLoop mountExec devices

/-- An overlay-mode device entry as `mount` creates it: bound read-only at the
hidden base path derived from the device id. -/
def c1Device : DeviceEntry where
  type := "disk"
  source := some "/host/data"
  path := some "/.overlay-base/mount-abc123"
  readonly := some "true"

/-- A guest `mount` listing in which no line references the device's upper
directory (the overlay was unmounted out-of-band). -/
def c1MountExec : String → Except Err ExecResult := fun _ =>
  Except.ok { stdout := "/dev/sda1 on / type ext4 (rw)\nproc on /proc type proc (rw)",
              stderr := "", exitCode := 0 }

/-- C1 counterexample: an overlay device whose upper-directory pattern matches
no line of the live `mount` output is NOT dropped from the inventory — it is
returned, without error, with its target set to the hidden overlay-base path
(a wrong target), contradicting the claim that it is silently excluded. -/
theorem listMounts_stale_overlay_counterexample :
    Sandbox.listMounts [("mount-abc123", c1Device)] c1MountExec =
      Except.ok [{ source := "/host/data", target := "/.overlay-base/mount-abc123",
                   mode := MountMode.overlay, device := "mount-abc123" }] ∧
    Sandbox.listMounts [("mount-abc123", c1Device)] c1MountExec ≠ Except.ok [] := by
  have h1 : Sandbox.listMounts [("mount-abc123", c1Device)] c1MountExec =
      Except.ok [{ source := "/host/data", target := "/.overlay-base/mount-abc123",
                   mode := MountMode.overlay, device := "mount-abc123" }] := rfl
  refine ⟨h1, fun h => ?_⟩
  rw [h1] at h
  simp at h

/-- C1 as amended: an overlay-mode device whose upper-directory pattern
matches no line of the guest's live `mount` output is kept in the returned
inventory without error, with its target left at the device's configured path
(the hidden overlay-base path), rather than being dropped. -/
theorem listMounts_stale_overlay_amended
    (deviceName s p : String) (device : DeviceEntry)
    (rest : List (String × DeviceEntry)) (mountExec : String → Except Err ExecResult)
    (out : ExecResult) (tail : List MountInfo)
    (htype : device.type = "disk")
    (hname : jsStartsWith deviceName "mount-" = true)
    (hpath : device.path = some p)
    (hbase : jsStartsWith p "/.overlay-base/" = true)
    (hexec : mountExec deviceName = Except.ok out)
    (hnoline : ∀ line ∈ jsSplitChar '\n' out.stdout,
      jsIncludes line ("/.overlay-work/" ++ strDrop p ("/.overlay-base/".length) ++
        "/upper") = false)
    (hsrc : device.source = some s) (hs : s ≠ "") (hp : p ≠ "")
    (hrest : listMountsLoop mountExec rest = Except.ok tail) :
    Sandbox.listMounts ((deviceName, device) :: rest) mountExec =
      Except.ok ({ source := s, target := p, mode := MountMode.overlay,
                   device := deviceName } :: tail) := by
  have hfind : (jsSplitChar '\n' out.stdout).find?
      (fun line => jsIncludes line ("/.overlay-work/" ++
        strDrop p ("/.overlay-base/".length) ++ "/upper")) = none :=
    List.find?_eq_none.2 (fun x hx => by simp [hnoline x hx])
  unfold Sandbox.listMounts listMountsLoop
  simp [htype, hname, hpath, hbase, hexec, hfind, hsrc, hs, hp, hrest]

/-- Witness for `listMounts_stale_overlay_amended` at the concrete stale
overlay device. -/
theorem listMounts_stale_overlay_amended_witness :
    Sandbox.listMounts [("mount-abc123", c1Device)] c1MountExec =
      Except.ok [{ source := "/host/data", target := "/.overlay-base/mount-abc123",
                   mode := MountMode.overlay, device := "mount-abc123" }] :=
  listMounts_stale_overlay_amended "mount-abc123" "/host/data"
    "/.overlay-base/mount-abc123" c1Device [] c1MountExec
    { stdout := "/dev/sda1 on / type ext4 (rw)\nproc on /proc type proc (rw)",
      stderr := "", exitCode := 0 } []
    rfl (by decide) rfl (by decide) rfl (by decide) rfl (by decide) (by decide) rfl
